import Mathlib

/-!
Shallow embedding of the Manilow virtual machine execution core.

The embedding follows the current revision of the source: the kernel in
src/src/Kernel.ts, the runtime loop in src/src/Runtime.ts, the operand
classes in src/src/argument/Argument.ts and src/src/Mutable.ts, the state
providers in src/src/State.ts, and the register layout of the Bus
constructor.  Machine words are JS numbers used as integers, modelled as
Int.  JS bitwise operators are modelled by the corresponding Int bitwise
operations; all flag words reached in the proofs are small non-negative
values, for which the two agree.
-/

namespace Manilow

/-- Machine word.  The source declares `type Word = number`; the programs
treat words as signed integers, modelled as Int. -/
abbrev Word := Int

/-- Flat memory (class Memory in src/src/State.ts): a JS array used as a
word-addressed store.  The model is a total function; every cell read by
a proof below was either zero-initialised by the Machine constructor or
previously written. -/
abbrev Mem := Int → Word

/-- Memory read: `get(address) { return this.data[address] }`. -/
def memGet (m : Mem) (a : Int) : Word := m a

/-- Memory write: `set(address, value) { this.data[address] = value }`. -/
def memSet (m : Mem) (a : Int) (v : Word) : Mem :=
  fun x => if x = a then v else m x

/-- Channel state (class Channels in src/src/State.ts): an ordered list of
FIFO queues of words. -/
abbrev Chans := List (List Word)

/-- Channels write.  The current Channels class (src/src/State.ts lines
24-45) overrides only `get`; `set` resolves to the abstract State base
class method `set(_: Word, __: number) { return }` (lines 12-22), which
does nothing.  The channel list is returned unchanged. -/
def channelsSet (ch : Chans) (_address : Int) (_value : Word) : Chans := ch

/-- Modelled from the spec: the data-model section says of Channels that
"`set` enqueues".  This definition follows the spec words (and matches the
`channel.push(value)` body found in earlier revisions of the repository);
the current src/src/State.ts contains no such override.  It exists only to
be compared against `channelsSet`. -/
def channelsSetSpec (ch : Chans) (address : Nat) (value : Word) : Chans :=
  ch.set address (ch.getD address [] ++ [value])

namespace Flags

/-- Flag bit number HALT (enum Flags in src/src/types, first member). -/
def HALT : Int := 0

/-- Flag bit number ZERO (enum Flags, second member). -/
def ZERO : Int := 1

end Flags

/-- Bitfield flag test (src/src/Mutable.ts line 193-195):
`get(bitNo) { return Boolean(this.read() | bitNo) }`.  Note that the
source applies bitwise OR between the whole word and the bit NUMBER
itself (not a mask `1 << bitNo`), so the result is true whenever the word
or the bit number is nonzero. -/
def bitGet (w : Word) (bitNo : Int) : Bool := Int.lor w bitNo != 0

/-- Bitfield toggle (src/src/Mutable.ts lines 211-215):
`const bit = 1 << bitNo; this.write(old ^ bit)`. -/
def bitToggle (w : Word) (bitNo : Int) : Word := Int.xor w ((1 : Int) <<< bitNo)

/-- Bitfield set (src/src/Mutable.ts lines 197-202): return unchanged if
`get(bitNo)` already reports true, otherwise toggle. -/
def bitSet (w : Word) (bitNo : Int) : Word :=
  if bitGet w bitNo then w else bitToggle w bitNo

/-- Bitfield unset (src/src/Mutable.ts lines 204-209): toggle only if
`get(bitNo)` reports true. -/
def bitUnset (w : Word) (bitNo : Int) : Word :=
  if bitGet w bitNo then bitToggle w bitNo else w

/-- Operand variants, a tagged-variant rendering of the source class
hierarchy: Literal and Block (src/src/argument/Argument.ts together with
the Literal/Block file of the argument directory) carry their constant
and define no write member; Variable, Bitfield and Pointer
(src/src/Mutable.ts) are memory-backed.  A Bitfield is a Variable used
for the flags register; the kernel tests `c instanceof Bitfield`. -/
inductive Arg
  | literal (data : Word)
  | block (data : Word)
  | var (data : Int)
  | pointer (data : Int)
  | bitfield (data : Int)
deriving DecidableEq

/-- Operand read.  Literal/Block return their constant
(`read() { return this.data }`); Variable and Bitfield read memory at
their own data (`address` getter returns `this.data`); Pointer reads at
the dereferenced address `state.get(this.data)`. -/
def readArg (m : Mem) : Arg → Word
  | .literal d => d
  | .block d => d
  | .var a => memGet m a
  | .pointer d => memGet m (memGet m d)
  | .bitfield a => memGet m a

/-- Failure modes of the embedded code.  `typeError` models a JS
TypeError: in the current source Literal and Block define no `write`
member, so `dest.write(...)` on them throws, as does reading a missing
argument with no default.  `immutableError` is modelled from the spec
words "fails with an immutability error"; no code path in the current
source produces it (earlier revisions threw
`Error: immediate values are immutable`).  `fuelExhausted` is an
artefact of modelling the unbounded while loop with fuel and is never
produced in any proof below. -/
inductive Err
  | typeError
  | immutableError
  | fuelExhausted
deriving DecidableEq

/-- Operand write.  The memory-backed operands delegate
`write(value) { return this.state.set(this.address, value) }`; for a
Pointer the address is first read from memory.  Literal and Block have no
write member in the current source, so the call fails with a TypeError. -/
def writeArg (m : Mem) : Arg → Word → Except Err Mem
  | .literal _, _ => .error .typeError
  | .block _, _ => .error .typeError
  | .var a, v => .ok (memSet m a v)
  | .pointer d, v => .ok (memSet m (memGet m d) v)
  | .bitfield a, v => .ok (memSet m a v)

/-- Memory cell affected by a write through the given operand, if any:
Variable and Bitfield write at their own data, a Pointer writes at the
dereferenced address read from the given memory. -/
def targetCell (m : Mem) : Arg → Option Int
  | .literal _ => none
  | .block _ => none
  | .var a => some a
  | .pointer d => some (memGet m d)
  | .bitfield a => some a

/-- Register addresses assigned by the Bus constructor: accum 0, data 1,
flags 2, instr 3, stack 4 (the cell holding the stack pointer target),
base 5, then ten general purpose registers. -/
def accumAddr : Int := 0

/-- Memory address of the data register. -/
def dataAddr : Int := 1

/-- Memory address of the flags register. -/
def flagsAddr : Int := 2

/-- Memory address of the instruction pointer register. -/
def instrAddr : Int := 3

/-- Memory address of the stack pointer cell. -/
def stackAddr : Int := 4

/-- Channel index of the output port (second port initialised by the
Bus constructor). -/
def outputAddr : Int := 1

/-- Default source operand `this.registers.data`. -/
def dataReg : Arg := .var dataAddr

/-- Default destination operand `this.registers.accum`. -/
def accumReg : Arg := .var accumAddr

/-- Default comparison target `this.registers.flags`, a Bitfield. -/
def flagsReg : Arg := .bitfield flagsAddr

-- Transforms and predicates defined at the top of src/src/Kernel.ts.

/-- Unary transform `increment`. -/
def jsIncrement (a : Word) : Word := a + 1

/-- Unary transform `decrement`. -/
def jsDecrement (a : Word) : Word := a - 1

/-- Unary transform `negate`. -/
def jsNegate (a : Word) : Word := -a

/-- Unary transform `double`. -/
def jsDouble (a : Word) : Word := a * 2

/-- Binary transform `add`. -/
def jsAdd (a b : Word) : Word := a + b

/-- Binary transform `sub`. -/
def jsSub (a b : Word) : Word := a - b

/-- Binary transform `mul`. -/
def jsMul (a b : Word) : Word := a * b

/-- Binary predicate `eq` (src/src/Kernel.ts line 327). -/
def jsEq (a b : Word) : Bool := a == b

/-- Binary predicate `neq` (line 328). -/
def jsNeq (a b : Word) : Bool := a != b

/-- Binary predicate `gt` (line 329). -/
def jsGt (a b : Word) : Bool := decide (a > b)

/-- Binary predicate `gte` (line 330). -/
def jsGte (a b : Word) : Bool := decide (a ≥ b)

/-- Binary predicate `lt` (line 331). -/
def jsLt (a b : Word) : Bool := decide (a < b)

/-- Binary predicate `lte` (src/src/Kernel.ts line 332):
`function lte(a, b): boolean { return a < b }`.  The body tests strict
less-than, identical to `lt`. -/
def jsLte (a b : Word) : Bool := decide (a < b)

/-- Unary predicate `zero`: `eq(a, 0)`. -/
def jsZero (a : Word) : Bool := jsEq a 0

/-- Unary predicate `nonZero`: `neq(a, 0)`. -/
def jsNonZero (a : Word) : Bool := jsNeq a 0

-- Kernel operations (class Kernel in src/src/Kernel.ts).  The runtime
-- invokes each bound operation as `fn(...args)`; missing trailing
-- arguments take the JS default parameter, modelled with List.getD.

/-- Kernel copy (lines 399-401): `dest.write(src.read())` with src
defaulting to the data register and dest to the accumulator. -/
def copyRaw (args : List Arg) (m : Mem) : Except Err Mem :=
  writeArg m (args.getD 1 accumReg) (readArg m (args.getD 0 dataReg))

/-- Kernel zero (lines 408-410): `this.copy(new Literal(0), dest)` with
dest defaulting to the accumulator. -/
def zeroRaw (args : List Arg) (m : Mem) : Except Err Mem :=
  copyRaw [.literal 0, args.getD 0 accumReg] m

/-- Kernel applySrcToDest (lines 440-445): parameters
`(a = data, b = accum, dest = accum)`; computes `fn(b.read(), a.read())`
and writes the result to dest. -/
def applySrcToDestRaw (fn : Word → Word → Word) (args : List Arg) (m : Mem) :
    Except Err Mem :=
  writeArg m (args.getD 2 accumReg)
    (fn (readArg m (args.getD 1 accumReg)) (readArg m (args.getD 0 dataReg)))

/-- Kernel applyToDest (lines 451-456): read dest (default accum), apply
the unary transform, write back. -/
def applyToDestRaw (fn : Word → Word) (args : List Arg) (m : Mem) :
    Except Err Mem :=
  writeArg m (args.getD 0 accumReg) (fn (readArg m (args.getD 0 accumReg)))

/-- Kernel compare (lines 463-475): parameters
`(a = data, b = accum, c = flags)`; `success = fn(b.read(), a.read())`.
When c is a Bitfield, call `c.unset(Flags.ZERO)` on success and
`c.set(Flags.ZERO)` on failure; otherwise write `Number(success)`. -/
def compareRaw (fn : Word → Word → Bool) (args : List Arg) (m : Mem) :
    Except Err Mem :=
  let success := fn (readArg m (args.getD 1 accumReg)) (readArg m (args.getD 0 dataReg))
  match args.getD 2 flagsReg with
  | .bitfield a =>
      if success then .ok (memSet m a (bitUnset (memGet m a) Flags.ZERO))
      else .ok (memSet m a (bitSet (memGet m a) Flags.ZERO))
  | c => writeArg m c (if success then 1 else 0)

/-- Kernel push (lines 477-480) with the default stack operand, the
stack Pointer at cell 4: `stack.write(src.read()); stack.address += 1`.
The Pointer write stores at the address read from its cell; the address
setter then rewrites the cell itself.  The source also accepts an
explicit second stack operand; no claim exercises it and it is not
modelled. -/
def pushRaw (m : Mem) (src : Arg) : Mem :=
  let m1 := memSet m (memGet m stackAddr) (readArg m src)
  memSet m1 stackAddr (memGet m1 stackAddr + 1)

/-- Kernel pop (lines 489-499): decrement the stack pointer cell, read
the tip, and unless dest is null write the tip into dest.  Returns the
tip together with the updated memory. -/
def popRaw (m : Mem) (dest : Option Arg) : Except Err (Word × Mem) :=
  let m1 := memSet m stackAddr (memGet m stackAddr - 1)
  let tip := memGet m1 (memGet m1 stackAddr)
  match dest with
  | none => .ok (tip, m1)
  | some d =>
      match writeArg m1 d tip with
      | .error e => .error e
      | .ok m2 => .ok (tip, m2)

/-- Kernel jump (lines 529-535): `ip.write(dest.read() - 1)`, where ip is
the instr register (the runtime adds 1 after every step). -/
def jumpRaw (m : Mem) (dest : Arg) : Mem :=
  memSet m instrAddr (readArg m dest - 1)

/-- Kernel call (lines 501-507): read the current instruction index, push
`index + 1` as the return address, then jump to dest. -/
def callRaw (m : Mem) (dest : Arg) : Mem :=
  jumpRaw (pushRaw m (.literal (memGet m instrAddr + 1))) dest

/-- Kernel return (lines 509-524): pop the return address discarding it
from the stack, push the return value unless it is null (it defaults to
the accumulator), then jump to the popped address. -/
def returnRaw (m : Mem) (returnValue : Option Arg) : Mem :=
  let m1 := memSet m stackAddr (memGet m stackAddr - 1)
  let tip := memGet m1 (memGet m1 stackAddr)
  let m2 := match returnValue with
    | none => m1
    | some rv => pushRaw m1 rv
  jumpRaw m2 (.literal tip)

/-- Kernel jumpIf (lines 541-559): parameters `(dest, src = accum)`; if
the predicate rejects `src.read()` do nothing, else write
`dest.read() - 1` into the instruction pointer.  A missing dest operand
would make `dest.read()` a TypeError. -/
def jumpIfRaw (pred : Word → Bool) (args : List Arg) (m : Mem) :
    Except Err Mem :=
  match args.head? with
  | none => .error .typeError
  | some dest =>
      if pred (readArg m (args.getD 1 accumReg)) then
        .ok (memSet m instrAddr (readArg m dest - 1))
      else .ok m

/-- Machine state seen by kernel operations: the memory cells and the
I/O channel queues. -/
structure St where
  mem : Mem
  chans : Chans

/-- Lift a memory-only kernel operation to the full state. -/
def liftMem (f : Mem → Except Err Mem) (st : St) : Except Err St :=
  match f st.mem with
  | .error e => .error e
  | .ok m => .ok { st with mem := m }

/-- Op codes of the ISA table (src/src/Kernel.ts lines 345-383).  IN is
omitted: its semantics dequeue from the input channel and can surface the
NaN sentinel, which no claim mentions; SQ and SQRT are omitted because
they go through JS floating point (`Math.pow`, `Math.sqrt`). -/
inductive Op
  | NOOP | HALT | COPY | ZERO | OUT
  | EQ | NEQ | GT | GTE | LT | LTE
  | ADD | SUB | MUL
  | INC | DEC | NEG | DBL
  | PUSH | POP
  | GOTO | IF | ELSE | ENTER | EXIT
deriving DecidableEq

/-- Dispatch of an op code to its kernel operation, mirroring the isa
table.  HALT runs `this.registers.flags.set(Flags.HALT)`; OUT runs
`this.registers.output.write(src.read())` whose Port write calls the
Channels set; GOTO/ENTER read their mandatory dest operand. -/
def execInstr (op : Op) (args : List Arg) (st : St) : Except Err St :=
  match op with
  | .NOOP => .ok st
  | .HALT =>
      .ok { st with mem := memSet st.mem flagsAddr (bitSet (memGet st.mem flagsAddr) Flags.HALT) }
  | .COPY => liftMem (copyRaw args) st
  | .ZERO => liftMem (zeroRaw args) st
  | .OUT =>
      .ok { st with chans := channelsSet st.chans outputAddr (readArg st.mem (args.getD 0 accumReg)) }
  | .EQ => liftMem (compareRaw jsEq args) st
  | .NEQ => liftMem (compareRaw jsNeq args) st
  | .GT => liftMem (compareRaw jsGt args) st
  | .GTE => liftMem (compareRaw jsGte args) st
  | .LT => liftMem (compareRaw jsLt args) st
  | .LTE => liftMem (compareRaw jsLte args) st
  | .ADD => liftMem (applySrcToDestRaw jsAdd args) st
  | .SUB => liftMem (applySrcToDestRaw jsSub args) st
  | .MUL => liftMem (applySrcToDestRaw jsMul args) st
  | .INC => liftMem (applyToDestRaw jsIncrement args) st
  | .DEC => liftMem (applyToDestRaw jsDecrement args) st
  | .NEG => liftMem (applyToDestRaw jsNegate args) st
  | .DBL => liftMem (applyToDestRaw jsDouble args) st
  | .PUSH => liftMem (fun m => .ok (pushRaw m (args.getD 0 accumReg))) st
  | .POP =>
      liftMem (fun m =>
        match popRaw m (some (args.getD 0 accumReg)) with
        | .error e => .error e
        | .ok p => .ok p.2) st
  | .GOTO =>
      liftMem (fun m =>
        match args.head? with
        | none => .error .typeError
        | some dest => .ok (jumpRaw m dest)) st
  | .IF => liftMem (jumpIfRaw jsZero args) st
  | .ELSE => liftMem (jumpIfRaw jsNonZero args) st
  | .ENTER =>
      liftMem (fun m =>
        match args.head? with
        | none => .error .typeError
        | some dest => .ok (callRaw m dest)) st
  | .EXIT => liftMem (fun m => .ok (returnRaw m (some (args.getD 0 accumReg)))) st

-- Runtime (class Runtime in src/src/Runtime.ts).

/-- Step budget: `static MAX_STEPS = 50` (src/src/Runtime.ts line 37). -/
def MAX_STEPS : Nat := 50

/-- Compiled instruction: an op code with its bound operand list. -/
structure Instr where
  op : Op
  args : List Arg

/-- Runtime state: memory, channels, and the private step counter that
`run` resets to zero before the loop. -/
structure RSt where
  mem : Mem
  chans : Chans
  steps : Nat

/-- Program fetch `this.program[no]`: undefined outside the array
bounds. -/
def progGet (prog : List Instr) (no : Int) : Option Instr :=
  if no < 0 then none else prog[no.toNat]?

/-- Flag write performed by `Runtime.halt`:
`this.registers.flags.set(Flags.HALT)`. -/
def haltMem (m : Mem) : Mem :=
  memSet m flagsAddr (bitSet (memGet m flagsAddr) Flags.HALT)

/-- Runtime step (src/src/Runtime.ts lines 94-134): read the instruction
pointer, fetch the instruction, execute it, re-read the instruction
pointer and increment it by one, halt when the next index reaches the
program length, and otherwise bump the step counter, halting once it
exceeds MAX_STEPS.  Fetching a missing instruction is a TypeError: the
source destructures `this.program[no]` before its `if (!lambda)` guard
can run, so that guard is dead code for well-formed programs. -/
def step (prog : List Instr) (s : RSt) : Except Err RSt :=
  let no := memGet s.mem instrAddr
  match progGet prog no with
  | none => .error .typeError
  | some instr =>
      match execInstr instr.op instr.args { mem := s.mem, chans := s.chans } with
      | .error e => .error e
      | .ok st =>
          let nextNo := memGet st.mem instrAddr + 1
          let m2 := memSet st.mem instrAddr nextNo
          if nextNo ≥ (prog.length : Int) then
            .ok { mem := haltMem m2, chans := st.chans, steps := s.steps }
          else
            let steps1 := s.steps + 1
            if steps1 > MAX_STEPS then
              .ok { mem := haltMem m2, chans := st.chans, steps := steps1 }
            else
              .ok { mem := m2, chans := st.chans, steps := steps1 }

/-- Halt test of the free-running loop (src/src/Runtime.ts line 81):
`while (!this.registers.flags.get(Flags.HALT)) this.step()`. -/
def halted (s : RSt) : Bool := bitGet (memGet s.mem flagsAddr) Flags.HALT

/-- Free-running loop: keep stepping until the halt test succeeds.  The
loop is modelled with fuel; alongside the final state it returns how many
times `step` ran.  `fuelExhausted` never occurs in the concrete runs
proved below. -/
def run (prog : List Instr) (fuel : Nat) (s : RSt) : Except Err (RSt × Nat) :=
  if halted s then .ok (s, 0)
  else
    match fuel with
    | 0 => .error .fuelExhausted
    | f + 1 =>
        match step prog s with
        | .error e => .error e
        | .ok s1 =>
            match run prog f s1 with
            | .error e => .error e
            | .ok (r, n) => .ok (r, n + 1)

/-- Number of executed steps of a run, when the run completed. -/
def runCount (prog : List Instr) (fuel : Nat) (s : RSt) : Option Nat :=
  match run prog fuel s with
  | .ok (_, n) => some n
  | .error _ => none

-- Initial machine state (Machine and Bus constructors): memory is
-- Bus.NUM_REGISTERS zero words, then the Bus constructor repoints the
-- stack pointer cell to Memory.STACK_SEGMENT = 50.  The channels start
-- with the seeded input queue and an empty output queue.

/-- Zero-filled memory produced by Machine.initMemory
(`Array(Bus.NUM_REGISTERS).fill(0)`). -/
def zeroMem : Mem := fun _ => 0

/-- Initial memory: all registers zero, then the Bus constructor sets the
stack pointer cell 4 to 50. -/
def initMem : Mem := memSet zeroMem stackAddr 50

/-- Initial channels: the seeded input queue and the empty output
queue (Machine.initIo). -/
def initChans : Chans := [[3, 2, 0, 5, 17, 0, 23], []]

/-- Initial kernel-level state. -/
def initSt : St := { mem := initMem, chans := initChans }

/-- Initial runtime state: `run` resets the step counter to zero; the
instruction pointer starts at zero (zero-filled memory). -/
def initRSt : RSt := { mem := initMem, chans := initChans, steps := 0 }

-- Concrete programs and states used by individual properties.

/-- Program consisting solely of `GOTO Start`: the parser resolves the
label of the first instruction to index 0, so the single instruction
jumps to itself. -/
def gotoProg : List Instr := [⟨.GOTO, [.block 0]⟩]

/-- Program `Start: COPY 3; ENTER Sub; ENTER Sub; HALT` followed by
`Sub: MUL 2; EXIT @accum`.  The parser resolves block label Sub to
instruction index 4 and the variable reference to the accumulator
register address. -/
def subProg : List Instr :=
  [⟨.COPY, [.literal 3]⟩, ⟨.ENTER, [.block 4]⟩, ⟨.ENTER, [.block 4]⟩,
   ⟨.HALT, []⟩, ⟨.MUL, [.literal 2]⟩, ⟨.EXIT, [.var accumAddr]⟩]

/-- Machine memories after each executed step of `subProg`, used to
trace the run one step at a time.  Step 1 runs `COPY 3` (accumulator 3,
instruction pointer 1). -/
def subM1 : Mem := memSet (memSet initMem 0 3) 3 1

/-- Memory after step 2, `ENTER Sub` at index 1: return address 2 pushed
to stack cell 50, stack pointer 51, jump to index 4. -/
def subM2 : Mem := memSet (memSet (memSet subM1 50 2) 4 51) 3 4

/-- Memory after step 3, `MUL 2`: accumulator 6, instruction pointer 5. -/
def subM3 : Mem := memSet (memSet subM2 0 6) 3 5

/-- Memory after step 4, `EXIT @accum`: return address 2 popped, return
value 6 pushed in its place, jump back to index 2. -/
def subM4 : Mem := memSet (memSet (memSet (memSet subM3 4 50) 50 6) 4 51) 3 2

/-- Memory after step 5, the second `ENTER Sub`: return address 3 pushed
to stack cell 51, stack pointer 52, jump to index 4. -/
def subM5 : Mem := memSet (memSet (memSet subM4 51 3) 4 52) 3 4

/-- Memory after step 6, `MUL 2`: accumulator 12. -/
def subM6 : Mem := memSet (memSet subM5 0 12) 3 5

/-- Memory after step 7, `EXIT @accum`: return address 3 popped, return
value 12 pushed, jump back to index 3. -/
def subM7 : Mem := memSet (memSet (memSet (memSet subM6 4 51) 51 12) 4 52) 3 3

/-- Memory after step 8, `HALT`: flag word 1. -/
def subM8 : Mem := memSet (memSet subM7 2 1) 3 4

/-- Sequential execution of `PUSH x` then `POP y` through the ISA
dispatch. -/
def pushPop (x y : Arg) (st : St) : Except Err St :=
  match execInstr .PUSH [x] st with
  | .error e => .error e
  | .ok st1 => execInstr .POP [y] st1

/-- Error component of a write result, if the write failed. -/
def writeErrOf : Except Err Mem → Option Err
  | .error e => some e
  | .ok _ => none

/-- Memory with the accumulator holding 1 and the data register holding
10, used to exercise the two-operand arithmetic form. -/
def arithMem : Mem := memSet (memSet initMem accumAddr 1) dataAddr 10

/-- Memory with the accumulator holding 5 and general cell 6 holding 42,
used to exercise LTE on equal operands with a non-flags target. -/
def lteMem : Mem := memSet (memSet initMem accumAddr 5) (6 : Int) 42

/-- Kernel state with the accumulator holding 7, used to exercise OUT. -/
def outSt : St := { mem := memSet initMem accumAddr 7, chans := initChans }

/-- Runtime state whose flags word is 2: only the ZERO bit is set, the
HALT bit (bit 0) is clear. -/
def nonzeroFlagsSt : RSt := { mem := memSet initMem flagsAddr 2, chans := initChans, steps := 0 }

-- Helper lemmas about the memory model and the run loop.

/-- Reading the cell just written returns the written value. -/
theorem memGet_memSet_same (m : Mem) (a : Int) (v : Word) :
    memGet (memSet m a v) a = v := by
  simp [memGet, memSet]

/-- Reading any other cell is unaffected by a write. -/
theorem memGet_memSet_ne (m : Mem) (a b : Int) (v : Word) (h : b ≠ a) :
    memGet (memSet m a v) b = memGet m b := by
  simp [memGet, memSet, h]

/-- A write shadows an earlier write to the same cell. -/
theorem memSet_memSet_same (m : Mem) (a : Int) (v w : Word) :
    memSet (memSet m a v) a w = memSet m a w := by
  funext x
  by_cases h : x = a <;> simp [memSet, h]

/-- Writing back the value a cell already holds leaves memory unchanged. -/
theorem memSet_cancel (m : Mem) (a : Int) (v : Word) (h : memGet m a = v) :
    memSet m a v = m := by
  funext x
  by_cases hx : x = a <;> simp [memSet, hx]
  exact h.symm

/-- Zero-filled memory reads zero everywhere. -/
theorem memGet_zeroMem (b : Int) : memGet zeroMem b = 0 := rfl

/-- Bitwise OR of a word with zero is the word itself. -/
theorem int_lor_zero (w : Int) : Int.lor w 0 = w := by
  cases w with
  | ofNat n =>
      show Int.lor (Int.ofNat n) (Int.ofNat 0) = Int.ofNat n
      simp [Int.lor]
  | negSucc m =>
      show Int.lor (Int.negSucc m) (Int.ofNat 0) = Int.negSucc m
      simp [Int.lor, Nat.ldiff]

/-- The HALT flag test `Boolean(word | 0)` succeeds exactly on nonzero
flag words. -/
theorem bitGet_halt (w : Word) : bitGet w Flags.HALT = true ↔ w ≠ 0 := by
  simp [bitGet, Flags.HALT, int_lor_zero, bne_iff_ne]

/-- A halted state is returned unchanged by the run loop, with zero
steps executed. -/
theorem run_halted (prog : List Instr) (fuel : Nat) (s : RSt)
    (hs : halted s = true) : run prog fuel s = .ok (s, 0) := by
  unfold run
  simp [hs]

/-- Unfolding the run loop across one successful step. -/
theorem run_step_ok (prog : List Instr) (f : Nat) (s s1 : RSt)
    (hs : halted s = false) (h1 : step prog s = .ok s1) :
    run prog (f + 1) s =
      match run prog f s1 with
      | .error e => .error e
      | .ok (r, n) => .ok (r, n + 1) := by
  conv_lhs => rw [run]
  simp [hs, h1]

-- Claim C1.

/-- Claim C1, counterexample.  The claim states that with two operands
the second operand is the destination that receives the result.  Running
`ADD 5, @data` on memory with accum = 1 and data = 10 leaves the second
operand (the data register) at 10 and instead writes 15 into the
accumulator, so the second operand does not receive the result. -/
theorem c1_counterexample :
    (execInstr .ADD [.literal 5, .var dataAddr] { mem := arithMem, chans := initChans }).toOption.map
      (fun s => (s.mem dataAddr, s.mem accumAddr)) = some (10, 15) ∧ (10 : Int) ≠ 15 := by
  decide

/-- Claim C1, amended.  ADD, SUB and MUL follow the three-parameter
pattern of `applySrcToDest` (a = data, b = accum, dest = accum): the
result `fn(b, a)` is written to dest.  With zero operands a is the data
register and b and dest the accumulator; with one operand the operand
combines with the accumulator into the accumulator; with two operands
the second operand supplies the left argument of `fn` and the result
goes to the default destination, the accumulator — the second operand
receives the result only when it is itself the accumulator; only a third
operand names a different destination. -/
theorem c1_arith_defaults (st : St) (x y z : Arg) :
    (execInstr .ADD [] st
      = liftMem (fun m => writeArg m accumReg (jsAdd (readArg m accumReg) (readArg m dataReg))) st) ∧
    (execInstr .ADD [x] st
      = liftMem (fun m => writeArg m accumReg (jsAdd (readArg m accumReg) (readArg m x))) st) ∧
    (execInstr .ADD [x, y] st
      = liftMem (fun m => writeArg m accumReg (jsAdd (readArg m y) (readArg m x))) st) ∧
    (execInstr .ADD [x, y, z] st
      = liftMem (fun m => writeArg m z (jsAdd (readArg m y) (readArg m x))) st) ∧
    (execInstr .SUB [] st
      = liftMem (fun m => writeArg m accumReg (jsSub (readArg m accumReg) (readArg m dataReg))) st) ∧
    (execInstr .SUB [x] st
      = liftMem (fun m => writeArg m accumReg (jsSub (readArg m accumReg) (readArg m x))) st) ∧
    (execInstr .SUB [x, y] st
      = liftMem (fun m => writeArg m accumReg (jsSub (readArg m y) (readArg m x))) st) ∧
    (execInstr .SUB [x, y, z] st
      = liftMem (fun m => writeArg m z (jsSub (readArg m y) (readArg m x))) st) ∧
    (execInstr .MUL [] st
      = liftMem (fun m => writeArg m accumReg (jsMul (readArg m accumReg) (readArg m dataReg))) st) ∧
    (execInstr .MUL [x] st
      = liftMem (fun m => writeArg m accumReg (jsMul (readArg m accumReg) (readArg m x))) st) ∧
    (execInstr .MUL [x, y] st
      = liftMem (fun m => writeArg m accumReg (jsMul (readArg m y) (readArg m x))) st) ∧
    (execInstr .MUL [x, y, z] st
      = liftMem (fun m => writeArg m z (jsMul (readArg m y) (readArg m x))) st) := by
  exact ⟨rfl, rfl, rfl, rfl, rfl, rfl, rfl, rfl, rfl, rfl, rfl, rfl⟩

-- Claim C2.

/-- Claim C2 is wrong on the code and the code contradicts its own
Bitfield documentation: because `Bitfield.get` computes
`Boolean(word | bitNo)`, which is always true for the nonzero ZERO bit
number, `unset(ZERO)` always toggles bit 1 and `set(ZERO)` never does
anything.  From flags = 0, a successful default comparison (EQ with
accum = data = 0) leaves flags = 2, i.e. the ZERO bit SET after success,
and a failed comparison (EQ 1 against accum = 0) leaves flags = 0, i.e.
the ZERO bit CLEAR after failure — the opposite of the claimed
clear-on-true convention in both directions. -/
theorem c2_zero_bit_toggles :
    (execInstr .EQ [] initSt).toOption.map (fun s => s.mem flagsAddr) = some 2 ∧
    (execInstr .EQ [.literal 1] initSt).toOption.map (fun s => s.mem flagsAddr) = some 0 := by
  decide

-- Claim C6.

/-- Claim C6 is wrong on the code and the code contradicts the name of
its own predicate: `lte` at src/src/Kernel.ts line 332 is
`return a < b`, identical to `lt`.  On equal operands (data = 5 against
accum = 5, with the non-flags third operand at cell 6 initially 42) the
comparison fails and writes 0, where the claim requires success and 1. -/
theorem c6_lte_strict :
    jsLte 5 5 = false ∧ (∀ a b : Word, jsLte a b = jsLt a b) ∧
    (execInstr .LTE [.literal 5, .var accumAddr, .var 6] { mem := lteMem, chans := initChans }).toOption.map
      (fun s => s.mem 6) = some 0 := by
  exact ⟨rfl, fun a b => rfl, by decide⟩

-- Claim C7.

/-- Claim C7 is wrong on the code and the code contradicts the Port
documentation ("I read from and write to the channel's queue"): the
current Channels class overrides only `get`, so the `set` reached by
OUT's Port write is the abstract State no-op and the output queue never
grows.  With the accumulator holding 7 and an empty output queue,
executing OUT leaves the channels unchanged; the spec-modelled enqueue
would have produced an output queue holding 7. -/
theorem c7_out_not_enqueued :
    channelsSet initChans outputAddr 7 = initChans ∧
    (execInstr .OUT [] outSt).toOption.map St.chans = some initChans ∧
    channelsSetSpec initChans 1 7 = [[3, 2, 0, 5, 17, 0, 23], [7]] := by
  exact ⟨rfl, by decide, by decide⟩

-- Claim C9.

/-- Claim C9, counterexample.  The claim states that a write to a
Literal operand fails with an immutability error.  In the current source
Literal and Block define no `write` member at all, so the call fails as
a missing-method TypeError, not as the immutability error thrown by
earlier revisions: writing 0 to `Literal 0` produces `typeError`. -/
theorem c9_counterexample :
    writeErrOf (writeArg initMem (.literal 0) 0) = some .typeError ∧
    Err.typeError ≠ Err.immutableError := by
  decide

/-- Claim C9, amended.  For every value, zero included, a write
attempted on a Literal or Block operand fails — the classes provide no
write method, so the call raises a missing-method TypeError — and the
failure propagates without touching memory, channels or registers: it
never silently succeeds or silently does nothing.  The same failure
surfaces through the ISA, e.g. for COPY with a Literal or Block
destination. -/
theorem c9_literal_write_fails (d v : Word) (m : Mem) (st : St) (x : Arg) :
    writeArg m (.literal d) v = .error .typeError ∧
    writeArg m (.block d) v = .error .typeError ∧
    execInstr .COPY [x, .literal d] st = .error .typeError ∧
    execInstr .COPY [x, .block d] st = .error .typeError := by
  exact ⟨rfl, rfl, rfl, rfl⟩

-- Helper lemmas for the GOTO self-loop program.

/-- Flag word evaluations on concrete values. -/
theorem bitGet_zero_halt : bitGet 0 Flags.HALT = false := by decide

/-- Flag word 1 passes the HALT test. -/
theorem bitGet_one_halt : bitGet 1 Flags.HALT = true := by decide

/-- Setting the HALT flag on a zero flag word yields 1. -/
theorem bitSet_zero_halt : bitSet 0 Flags.HALT = 1 := by decide

/-- A state whose flag word is zero is not halted. -/
theorem halted_of_zero (m : Mem) (ch : Chans) (k : Nat)
    (hm2 : memGet m flagsAddr = 0) : halted ⟨m, ch, k⟩ = false := by
  simp [halted, hm2, bitGet_zero_halt]

/-- After the runtime's halt write, the halt test succeeds. -/
theorem halted_haltMem (m : Mem) (ch : Chans) (k : Nat)
    (hm2 : memGet m flagsAddr = 0) : halted ⟨haltMem m, ch, k⟩ = true := by
  simp [halted, haltMem, hm2, bitSet_zero_halt, memGet_memSet_same, bitGet_one_halt]

/-- A non-final step of the GOTO self-loop leaves memory unchanged (the
jump writes -1 into the instruction pointer and the runtime then writes
back 0) and only bumps the step counter. -/
theorem goto_step (m : Mem) (ch : Chans) (k : Nat)
    (hm3 : memGet m instrAddr = 0) (hk : k + 1 ≤ MAX_STEPS) :
    step gotoProg ⟨m, ch, k⟩ = .ok ⟨m, ch, k + 1⟩ := by
  have hset : memSet m instrAddr 0 = m := memSet_cancel _ _ _ hm3
  simp [step, gotoProg, progGet, execInstr, liftMem, jumpRaw, readArg, hm3,
    memGet_memSet_same, memSet_memSet_same, hset, Nat.not_lt.mpr hk]

/-- The fifty-first step of the GOTO self-loop trips the step budget
and halts. -/
theorem goto_step_last (m : Mem) (ch : Chans)
    (hm3 : memGet m instrAddr = 0) :
    step gotoProg ⟨m, ch, MAX_STEPS⟩ = .ok ⟨haltMem m, ch, MAX_STEPS + 1⟩ := by
  have hset : memSet m instrAddr 0 = m := memSet_cancel _ _ _ hm3
  simp [step, gotoProg, progGet, execInstr, liftMem, jumpRaw, readArg, hm3,
    memGet_memSet_same, memSet_memSet_same, hset, MAX_STEPS]

/-- Complete run of the GOTO self-loop from step counter k: with j
steps left in the budget, the loop executes j + 1 more steps (the final
one trips the budget) and stops in the halted state. -/
theorem goto_run (j : Nat) : ∀ (fuel : Nat) (m : Mem) (ch : Chans) (k : Nat),
    k + j = MAX_STEPS → memGet m instrAddr = 0 → memGet m flagsAddr = 0 →
    j + 2 ≤ fuel →
    run gotoProg fuel ⟨m, ch, k⟩ = .ok (⟨haltMem m, ch, MAX_STEPS + 1⟩, j + 1) := by
  induction j with
  | zero =>
      intro fuel m ch k hkj hm3 hm2 hf
      obtain ⟨f, rfl⟩ : ∃ f, fuel = f + 1 := ⟨fuel - 1, by omega⟩
      have hk : k = MAX_STEPS := by omega
      subst hk
      rw [run_step_ok _ f _ _ (halted_of_zero m ch MAX_STEPS hm2) (goto_step_last m ch hm3)]
      rw [run_halted _ f _ (halted_haltMem m ch (MAX_STEPS + 1) hm2)]
  | succ j ih =>
      intro fuel m ch k hkj hm3 hm2 hf
      obtain ⟨f, rfl⟩ : ∃ f, fuel = f + 1 := ⟨fuel - 1, by omega⟩
      rw [run_step_ok _ f _ _ (halted_of_zero m ch k hm2) (goto_step m ch k hm3 (by omega))]
      rw [ih f m ch (k + 1) (by omega) hm3 hm2 (by omega)]

-- Claim C3.

/-- Claim C3, counterexample.  The claim states that the self-looping
GOTO program executes exactly MAX_STEPS = 50 steps.  The runtime only
halts when the step counter strictly exceeds the budget
(`if (this.steps > Runtime.MAX_STEPS)`), so the loop executes 51 steps,
not 50. -/
theorem c3_counterexample :
    runCount gotoProg 200 initRSt = some 51 ∧ (51 : Nat) ≠ 50 := by
  constructor
  · have h := goto_run 50 200 initMem initChans 0 (by decide) (by decide) (by decide) (by omega)
    simp [runCount, initRSt, h]
  · decide

/-- Claim C3, amended.  The self-looping GOTO program never runs
indefinitely: it halts after exactly MAX_STEPS + 1 = 51 executed steps,
because the guard halts the machine on the first step whose counter
strictly exceeds the budget of 50. -/
theorem c3_step_budget :
    runCount gotoProg 200 initRSt = some (MAX_STEPS + 1) ∧
    (run gotoProg 200 initRSt).toOption.map (fun p => halted p.1) = some true := by
  have h := goto_run 50 200 initMem initChans 0 (by decide) (by decide) (by decide) (by omega)
  have h2 : run gotoProg 200 initRSt
      = Except.ok (⟨haltMem initMem, initChans, MAX_STEPS + 1⟩, 50 + 1) := h
  constructor
  · simp [runCount, h2, MAX_STEPS]
  · rw [h2]
    simp [Except.toOption, Option.map]
    exact halted_haltMem initMem initChans (MAX_STEPS + 1) (by decide)

-- Claim C10.

/-- Claim C10.  The free-running loop's halt test reads the whole flag
word: `flags.get(Flags.HALT)` computes `Boolean(word | 0)`, true exactly
when the word is nonzero; consequently, whenever the flags register
holds any nonzero value — whichever bit made it so — the runtime
executes no further step and returns the state unchanged. -/
theorem c10_halt_on_nonzero_flags (prog : List Instr) (fuel : Nat) (s : RSt) :
    (bitGet (memGet s.mem flagsAddr) Flags.HALT = true ↔ memGet s.mem flagsAddr ≠ 0) ∧
    (memGet s.mem flagsAddr ≠ 0 → run prog fuel s = .ok (s, 0)) := by
  refine ⟨bitGet_halt _, fun h => run_halted _ _ _ ?_⟩
  have : halted s = bitGet (memGet s.mem flagsAddr) Flags.HALT := rfl
  rw [this]
  exact (bitGet_halt _).mpr h

/-- Claim C10, witness: a state whose flag word is 2 — the HALT bit
itself is clear, only the ZERO bit is set — still stops the run loop
with zero steps executed. -/
theorem c10_witness :
    (memGet nonzeroFlagsSt.mem flagsAddr ≠ 0) ∧
    run gotoProg 10 nonzeroFlagsSt = .ok (nonzeroFlagsSt, 0) :=
  ⟨by decide, (c10_halt_on_nonzero_flags gotoProg 10 nonzeroFlagsSt).2 (by decide)⟩

-- Claim C5.

/-- Setting the HALT flag on the literal zero flag word yields 1. -/
theorem bitSet_zero_zero : bitSet 0 0 = 1 := by decide

/-- Claim C5.  Running the six-instruction program `Start: COPY 3;
ENTER Sub; ENTER Sub; HALT / Sub: MUL 2; EXIT @accum` terminates in a
halted state with the accumulator holding 12: each ENTER pushes the
index after the call site as return address and jumps to Sub, MUL
doubles the accumulator, and each EXIT pops the return address, pushes
the accumulator as return value, and jumps back. -/
theorem c5_call_return :
    (run subProg 100 initRSt).toOption.map
      (fun p => (memGet p.1.mem accumAddr, halted p.1)) = some (12, true) := by
  have h1 : step subProg initRSt = .ok ⟨subM1, initChans, 1⟩ := by
    simp [step, progGet, subProg, execInstr, liftMem, copyRaw, applySrcToDestRaw, writeArg,
      readArg, pushRaw, jumpRaw, callRaw, returnRaw, memGet_memSet_same, memGet_memSet_ne,
      memSet_memSet_same, memGet_zeroMem, initMem, initRSt, subM1, accumAddr, dataAddr,
      flagsAddr, instrAddr, stackAddr, accumReg, dataReg, flagsReg, MAX_STEPS, Flags.HALT,
      jsMul, bitSet_zero_zero, zeroMem]
  have h2 : step subProg ⟨subM1, initChans, 1⟩ = .ok ⟨subM2, initChans, 2⟩ := by
    simp [step, progGet, subProg, execInstr, liftMem, copyRaw, applySrcToDestRaw, writeArg,
      readArg, pushRaw, jumpRaw, callRaw, returnRaw, memGet_memSet_same, memGet_memSet_ne,
      memSet_memSet_same, memGet_zeroMem, initMem, subM1, subM2, accumAddr, dataAddr,
      flagsAddr, instrAddr, stackAddr, accumReg, dataReg, flagsReg, MAX_STEPS, Flags.HALT,
      jsMul, bitSet_zero_zero, zeroMem]
  have h3 : step subProg ⟨subM2, initChans, 2⟩ = .ok ⟨subM3, initChans, 3⟩ := by
    simp [step, progGet, subProg, execInstr, liftMem, copyRaw, applySrcToDestRaw, writeArg,
      readArg, pushRaw, jumpRaw, callRaw, returnRaw, memGet_memSet_same, memGet_memSet_ne,
      memSet_memSet_same, memGet_zeroMem, initMem, subM1, subM2, subM3, accumAddr, dataAddr,
      flagsAddr, instrAddr, stackAddr, accumReg, dataReg, flagsReg, MAX_STEPS, Flags.HALT,
      jsMul, bitSet_zero_zero, zeroMem]
  have h4 : step subProg ⟨subM3, initChans, 3⟩ = .ok ⟨subM4, initChans, 4⟩ := by
    simp [step, progGet, subProg, execInstr, liftMem, copyRaw, applySrcToDestRaw, writeArg,
      readArg, pushRaw, jumpRaw, callRaw, returnRaw, memGet_memSet_same, memGet_memSet_ne,
      memSet_memSet_same, memGet_zeroMem, initMem, subM1, subM2, subM3, subM4, accumAddr,
      dataAddr, flagsAddr, instrAddr, stackAddr, accumReg, dataReg, flagsReg, MAX_STEPS,
      Flags.HALT, jsMul, bitSet_zero_zero, zeroMem]
  have h5 : step subProg ⟨subM4, initChans, 4⟩ = .ok ⟨subM5, initChans, 5⟩ := by
    simp [step, progGet, subProg, execInstr, liftMem, copyRaw, applySrcToDestRaw, writeArg,
      readArg, pushRaw, jumpRaw, callRaw, returnRaw, memGet_memSet_same, memGet_memSet_ne,
      memSet_memSet_same, memGet_zeroMem, initMem, subM1, subM2, subM3, subM4, subM5,
      accumAddr, dataAddr, flagsAddr, instrAddr, stackAddr, accumReg, dataReg, flagsReg,
      MAX_STEPS, Flags.HALT, jsMul, bitSet_zero_zero, zeroMem]
  have h6 : step subProg ⟨subM5, initChans, 5⟩ = .ok ⟨subM6, initChans, 6⟩ := by
    simp [step, progGet, subProg, execInstr, liftMem, copyRaw, applySrcToDestRaw, writeArg,
      readArg, pushRaw, jumpRaw, callRaw, returnRaw, memGet_memSet_same, memGet_memSet_ne,
      memSet_memSet_same, memGet_zeroMem, initMem, subM1, subM2, subM3, subM4, subM5, subM6,
      accumAddr, dataAddr, flagsAddr, instrAddr, stackAddr, accumReg, dataReg, flagsReg,
      MAX_STEPS, Flags.HALT, jsMul, bitSet_zero_zero, zeroMem]
  have h7 : step subProg ⟨subM6, initChans, 6⟩ = .ok ⟨subM7, initChans, 7⟩ := by
    simp [step, progGet, subProg, execInstr, liftMem, copyRaw, applySrcToDestRaw, writeArg,
      readArg, pushRaw, jumpRaw, callRaw, returnRaw, memGet_memSet_same, memGet_memSet_ne,
      memSet_memSet_same, memGet_zeroMem, initMem, subM1, subM2, subM3, subM4, subM5, subM6,
      subM7, accumAddr, dataAddr, flagsAddr, instrAddr, stackAddr, accumReg, dataReg,
      flagsReg, MAX_STEPS, Flags.HALT, jsMul, bitSet_zero_zero, zeroMem]
  have h8 : step subProg ⟨subM7, initChans, 7⟩ = .ok ⟨subM8, initChans, 8⟩ := by
    simp [step, progGet, subProg, execInstr, liftMem, copyRaw, applySrcToDestRaw, writeArg,
      readArg, pushRaw, jumpRaw, callRaw, returnRaw, memGet_memSet_same, memGet_memSet_ne,
      memSet_memSet_same, memGet_zeroMem, initMem, subM1, subM2, subM3, subM4, subM5, subM6,
      subM7, subM8, accumAddr, dataAddr, flagsAddr, instrAddr, stackAddr, accumReg, dataReg,
      flagsReg, MAX_STEPS, Flags.HALT, jsMul, bitSet_zero_zero, zeroMem]
  have e0 : halted initRSt = false := by decide
  have e1 : halted ⟨subM1, initChans, 1⟩ = false := by decide
  have e2 : halted ⟨subM2, initChans, 2⟩ = false := by decide
  have e3 : halted ⟨subM3, initChans, 3⟩ = false := by decide
  have e4 : halted ⟨subM4, initChans, 4⟩ = false := by decide
  have e5 : halted ⟨subM5, initChans, 5⟩ = false := by decide
  have e6 : halted ⟨subM6, initChans, 6⟩ = false := by decide
  have e7 : halted ⟨subM7, initChans, 7⟩ = false := by decide
  have e8 : halted ⟨subM8, initChans, 8⟩ = true := by decide
  rw [show (100 : Nat) = 99 + 1 from rfl, run_step_ok _ 99 _ _ e0 h1]
  rw [show (99 : Nat) = 98 + 1 from rfl, run_step_ok _ 98 _ _ e1 h2]
  rw [show (98 : Nat) = 97 + 1 from rfl, run_step_ok _ 97 _ _ e2 h3]
  rw [show (97 : Nat) = 96 + 1 from rfl, run_step_ok _ 96 _ _ e3 h4]
  rw [show (96 : Nat) = 95 + 1 from rfl, run_step_ok _ 95 _ _ e4 h5]
  rw [show (95 : Nat) = 94 + 1 from rfl, run_step_ok _ 94 _ _ e5 h6]
  rw [show (94 : Nat) = 93 + 1 from rfl, run_step_ok _ 93 _ _ e6 h7]
  rw [show (93 : Nat) = 92 + 1 from rfl, run_step_ok _ 92 _ _ e7 h8]
  rw [run_halted _ 92 _ e8]
  decide

-- Claim C8.

/-- Claim C8.  COPY with zero operands writes the data register into
the accumulator; COPY with one literal operand n writes n into the
accumulator; COPY with two operands (n, X) writes n into the cell X
addresses, and when that cell is not the accumulator the accumulator is
unchanged. -/
theorem c8_copy_defaults (st : St) (n : Word) (X : Arg) (t : Int)
    (hX : targetCell st.mem X = some t) (ht : t ≠ accumAddr) :
    execInstr .COPY [] st
      = .ok { st with mem := memSet st.mem accumAddr (memGet st.mem dataAddr) } ∧
    execInstr .COPY [.literal n] st = .ok { st with mem := memSet st.mem accumAddr n } ∧
    ∃ st2, execInstr .COPY [.literal n, X] st = .ok st2 ∧
      memGet st2.mem t = n ∧ memGet st2.mem accumAddr = memGet st.mem accumAddr := by
  refine ⟨rfl, rfl, ?_⟩
  cases X with
  | literal d => simp [targetCell] at hX
  | block d => simp [targetCell] at hX
  | var a =>
      obtain rfl : a = t := by simpa [targetCell] using hX
      exact ⟨_, rfl, memGet_memSet_same _ _ _, memGet_memSet_ne _ _ _ _ (Ne.symm ht)⟩
  | pointer d =>
      have hd : memGet st.mem d = t := by simpa [targetCell] using hX
      refine ⟨_, rfl, ?_, ?_⟩
      · show memGet (memSet st.mem (memGet st.mem d) n) t = n
        rw [hd]
        exact memGet_memSet_same _ _ _
      · show memGet (memSet st.mem (memGet st.mem d) n) accumAddr = memGet st.mem accumAddr
        rw [hd]
        exact memGet_memSet_ne _ _ _ _ (Ne.symm ht)
  | bitfield a =>
      obtain rfl : a = t := by simpa [targetCell] using hX
      exact ⟨_, rfl, memGet_memSet_same _ _ _, memGet_memSet_ne _ _ _ _ (Ne.symm ht)⟩

/-- Claim C8, witness: `COPY 7, @data` from the initial machine writes
7 into the data register and leaves the accumulator unchanged. -/
theorem c8_witness :
    (targetCell initSt.mem (Arg.var dataAddr) = some dataAddr) ∧ dataAddr ≠ accumAddr ∧
    (∃ st2, execInstr .COPY [.literal 7, .var dataAddr] initSt = .ok st2 ∧
      memGet st2.mem dataAddr = 7 ∧ memGet st2.mem accumAddr = memGet initSt.mem accumAddr) :=
  ⟨by decide, by decide,
    (c8_copy_defaults initSt 7 (.var dataAddr) dataAddr (by decide) (by decide)).2.2⟩

-- Claim C4.

/-- Memory-level behaviour of `PUSH X; POP Y`: provided the pre-push
stack target is not the stack-pointer cell itself and the cell Y writes
is not the stack-pointer cell, the popped tip is X's pre-push value, Y's
cell receives it, and the stack pointer cell is back at its pre-push
value. -/
theorem push_pop_mem (m : Mem) (X Y : Arg) (t : Int)
    (hs : memGet m stackAddr ≠ stackAddr)
    (hY : targetCell (memSet (pushRaw m X) stackAddr (memGet (pushRaw m X) stackAddr - 1)) Y
      = some t)
    (ht : t ≠ stackAddr) :
    ∃ m3, popRaw (pushRaw m X) (some Y) = .ok (readArg m X, m3) ∧
      memGet m3 t = readArg m X ∧ memGet m3 stackAddr = memGet m stackAddr := by
  have hs' : stackAddr ≠ memGet m stackAddr := Ne.symm hs
  have hp4 : memGet (pushRaw m X) stackAddr = memGet m stackAddr + 1 := by
    simp [pushRaw, memGet_memSet_same, memGet_memSet_ne _ _ _ _ hs']
  have h24 : memGet (memSet (pushRaw m X) stackAddr (memGet (pushRaw m X) stackAddr - 1))
      stackAddr = memGet m stackAddr := by
    simp [memGet_memSet_same, hp4]
  have h2tip : memGet (memSet (pushRaw m X) stackAddr (memGet (pushRaw m X) stackAddr - 1))
      (memGet m stackAddr) = readArg m X := by
    rw [memGet_memSet_ne _ _ _ _ hs]
    simp [pushRaw, memGet_memSet_ne _ _ _ _ hs, memGet_memSet_same]
  set m2T := memSet (pushRaw m X) stackAddr (memGet (pushRaw m X) stackAddr - 1)
  cases Y with
  | literal d => simp [targetCell] at hY
  | block d => simp [targetCell] at hY
  | var a =>
      obtain rfl : a = t := by simpa [targetCell] using hY
      have hpop : popRaw (pushRaw m X) (some (Arg.var a)) = .ok
          (memGet m2T (memGet m2T stackAddr),
           memSet m2T a (memGet m2T (memGet m2T stackAddr))) := rfl
      rw [h24, h2tip] at hpop
      refine ⟨_, hpop, memGet_memSet_same _ _ _, ?_⟩
      rw [memGet_memSet_ne _ _ _ _ (Ne.symm ht)]
      exact h24
  | pointer d =>
      have hd : memGet m2T d = t := by simpa [targetCell] using hY
      have hpop : popRaw (pushRaw m X) (some (Arg.pointer d)) = .ok
          (memGet m2T (memGet m2T stackAddr),
           memSet m2T (memGet m2T d) (memGet m2T (memGet m2T stackAddr))) := rfl
      rw [h24, h2tip, hd] at hpop
      refine ⟨_, hpop, memGet_memSet_same _ _ _, ?_⟩
      rw [memGet_memSet_ne _ _ _ _ (Ne.symm ht)]
      exact h24
  | bitfield a =>
      obtain rfl : a = t := by simpa [targetCell] using hY
      have hpop : popRaw (pushRaw m X) (some (Arg.bitfield a)) = .ok
          (memGet m2T (memGet m2T stackAddr),
           memSet m2T a (memGet m2T (memGet m2T stackAddr))) := rfl
      rw [h24, h2tip] at hpop
      refine ⟨_, hpop, memGet_memSet_same _ _ _, ?_⟩
      rw [memGet_memSet_ne _ _ _ _ (Ne.symm ht)]
      exact h24

/-- Claim C4, counterexample.  The claim quantifies over every writable
operand Y.  Taking Y to be the Variable addressing the stack-pointer
cell itself (cell 4): from the initial machine, `PUSH 7; POP Y` ends
with the stack pointer cell holding 7, not its pre-push value 50 — the
popped value overwrites the stack pointer, so the claimed invariant
fails for this Y. -/
theorem c4_counterexample :
    (pushPop (.literal 7) (.var stackAddr) initSt).toOption.map
      (fun s2 => memGet s2.mem stackAddr) = some 7 ∧
    memGet initMem stackAddr = 50 ∧ (7 : Int) ≠ 50 := by
  decide

/-- Claim C4, amended.  For every word X and writable operand Y,
provided the stack's target address is not the stack-pointer cell
itself (true of the initial machine, where it is 50) and the cell Y
writes to is not the stack-pointer cell, executing `PUSH X; POP Y`
restores X's pre-push value into Y's cell and leaves the stack
pointer's target address equal to its pre-push address: PUSH writes to
the stack target then post-increments the pointer cell, POP
pre-decrements it and reads the tip. -/
theorem c4_push_pop (st : St) (X Y : Arg) (t : Int)
    (hs : memGet st.mem stackAddr ≠ stackAddr)
    (hY : targetCell
      (memSet (pushRaw st.mem X) stackAddr (memGet (pushRaw st.mem X) stackAddr - 1)) Y
      = some t)
    (ht : t ≠ stackAddr) :
    ∃ st2, pushPop X Y st = .ok st2 ∧
      memGet st2.mem t = readArg st.mem X ∧
      memGet st2.mem stackAddr = memGet st.mem stackAddr := by
  obtain ⟨m3, hpop, h1, h2⟩ := push_pop_mem st.mem X Y t hs hY ht
  refine ⟨{ st with mem := m3 }, ?_, h1, h2⟩
  simp [pushPop, execInstr, liftMem, hpop]

/-- Claim C4, witness: `PUSH 7; POP @6` on the initial machine stores 7
into cell 6 and returns the stack pointer target to 50. -/
theorem c4_witness :
    (memGet initSt.mem stackAddr ≠ stackAddr) ∧
    (targetCell
      (memSet (pushRaw initSt.mem (.literal 7)) stackAddr
        (memGet (pushRaw initSt.mem (.literal 7)) stackAddr - 1)) (Arg.var 6) = some 6) ∧
    ((6 : Int) ≠ stackAddr) ∧
    (∃ st2, pushPop (.literal 7) (.var 6) initSt = .ok st2 ∧
      memGet st2.mem 6 = readArg initSt.mem (.literal 7) ∧
      memGet st2.mem stackAddr = memGet initSt.mem stackAddr) :=
  ⟨by decide, by decide, by decide,
    c4_push_pop initSt (.literal 7) (.var 6) 6 (by decide) (by decide) (by decide)⟩

end Manilow
